import Mathlib

/-!
Verification of the Content Coverage & Gap Scoring Engine
(`src/utils/gap_analyzer.py`, `src/utils/strategy_generator.py`,
`src/config.py`) of the AI-Content-Intelligence-Engine repository.

The Python code is shallowly embedded: dictionaries keyed by persona name
become association lists (`List (String × StageCells)`), the fixed
three-stage funnel dictionary becomes a structure with one field per stage,
and Python floats become exact rationals (`ℚ`).  `round(x, 1)` is modelled
as rounding to the nearest tenth; no value appearing in any theorem below
sits on a rounding tie, so the difference between Python's
round-half-to-even and `round1` below is never exercised.
-/

/-- The keys of `FUNNEL_STAGES` in `src/config.py`, in insertion order. -/
def funnelStages : List String := ["awareness", "consideration", "decision"]

/-- Display name `FUNNEL_STAGES[stage]["name"]` from `src/config.py`
(`.get(stage, {}).get("name", stage)` in `get_gaps`). -/
def stageName (s : String) : String :=
  if s = "awareness" then "Awareness"
  else if s = "consideration" then "Consideration"
  else if s = "decision" then "Decision"
  else s

/-- Thresholds `SCORING_THRESHOLDS` from `src/config.py`. -/
structure ScoringThresholds where
  strong : ℚ
  moderate : ℚ
  gap : ℚ
deriving DecidableEq, Repr

def SCORING_THRESHOLDS : ScoringThresholds := { strong := 70, moderate := 40, gap := 0 }

/-- One entry of a cell's `content_items` list
(built at `gap_analyzer.py` lines 51-55). -/
structure ContentItem where
  title : String
  source : String
  quality : ℚ
deriving DecidableEq, Repr

/-- One coverage cell of the persona×stage matrix
(`gap_analyzer.py` lines 30-36). -/
structure Cell where
  content_count : ℚ
  content_items : List ContentItem
  avg_quality : ℚ
  coverage_score : ℚ
  status : String
deriving DecidableEq, Repr

/-- The zeroed cell `_initialize_matrix` writes for every (persona, stage). -/
def emptyCell : Cell :=
  { content_count := 0, content_items := [], avg_quality := 0,
    coverage_score := 0, status := "gap" }

/-- The per-persona stage dictionary.  After `_initialize_matrix` the inner
Python dict always has exactly the keys `awareness`, `consideration`,
`decision` (in that insertion order), so it is embedded as a structure. -/
structure StageCells where
  awareness : Cell
  consideration : Cell
  decision : Cell
deriving DecidableEq, Repr

/-- The coverage matrix: persona name → stage dict, in insertion order. -/
abbrev CoverageMatrix := List (String × StageCells)

/-- Cell lookup `matrix[persona][stage]`, `none` when either key is absent. -/
def getStage (sc : StageCells) (s : String) : Option Cell :=
  if s = "awareness" then some sc.awareness
  else if s = "consideration" then some sc.consideration
  else if s = "decision" then some sc.decision
  else none

/-- In-place update of `matrix[persona][stage]`; unchanged if the stage key
is not one of the three funnel stages. -/
def setStage (sc : StageCells) (s : String) (f : Cell → Cell) : StageCells :=
  if s = "awareness" then { sc with awareness := f sc.awareness }
  else if s = "consideration" then { sc with consideration := f sc.consideration }
  else if s = "decision" then { sc with decision := f sc.decision }
  else sc

/-- First matching entry for a persona key (Python dict lookup). -/
def findSC : CoverageMatrix → String → Option StageCells
  | [], _ => none
  | (n, sc) :: rest, p => if n = p then some sc else findSC rest p

/-- Mutate the cell of one (persona, stage) key in place. -/
def updateCell (m : CoverageMatrix) (p s : String) (f : Cell → Cell) : CoverageMatrix :=
  m.map (fun e => if e.1 = p then (e.1, setStage e.2 s f) else e)

/-- A classification record as consumed by `analyze_coverage`
(`gap_analyzer.py` lines 42-61). -/
structure ClassificationRecord where
  primary_persona : String
  secondary_personas : List String
  funnel_stage : String
  quality_score : ℚ
  original_title : String
  original_source : String
deriving DecidableEq, Repr

/-- Embeds `_initialize_matrix` (`gap_analyzer.py` lines 23-36): one zeroed
stage dict per persona name, in roster order. -/
def initMatrix (personas : List String) : CoverageMatrix :=
  personas.map (fun n => (n, ⟨emptyCell, emptyCell, emptyCell⟩))

/-- Lines 47-55: primary-persona contribution of one record — if the
primary persona and the stage are both known, bump `content_count` by 1
and append a `{title, source, quality}` reference. -/
def applyPrimary (m : CoverageMatrix) (r : ClassificationRecord) : CoverageMatrix :=
  if (findSC m r.primary_persona).isSome then
    if r.funnel_stage ∈ funnelStages then
      updateCell m r.primary_persona r.funnel_stage (fun c =>
        { c with
          content_count := c.content_count + 1,
          content_items := c.content_items ++
            [{ title := r.original_title, source := r.original_source,
               quality := r.quality_score }] })
    else m
  else m

/-- Lines 57-61: each matching secondary persona bumps the same-stage
cell's `content_count` by 0.5 (no item reference). -/
def applySecondaries (m : CoverageMatrix) (r : ClassificationRecord) : CoverageMatrix :=
  r.secondary_personas.foldl (fun acc sp =>
    if (findSC acc sp).isSome then
      if r.funnel_stage ∈ funnelStages then
        updateCell acc sp r.funnel_stage (fun c =>
          { c with content_count := c.content_count + 1/2 })
      else acc
    else acc) m

/-- One iteration of the record loop (lines 42-61). -/
def applyRecord (m : CoverageMatrix) (r : ClassificationRecord) : CoverageMatrix :=
  applySecondaries (applyPrimary m r) r

/-- The bare aggregation loop of `analyze_coverage` (lines 42-61),
without the initialization and scoring steps. -/
def aggregatePass (m : CoverageMatrix) (rs : List ClassificationRecord) : CoverageMatrix :=
  rs.foldl applyRecord m

/-- Python's `round(x, 1)` on the exact rational value. -/
def round1 (q : ℚ) : ℚ := (round (q * 10) : ℤ) / 10

/-- Lines 85-90: status from `coverage_score` via `SCORING_THRESHOLDS`. -/
def statusOf (score : ℚ) : String :=
  if SCORING_THRESHOLDS.strong ≤ score then "strong"
  else if SCORING_THRESHOLDS.moderate ≤ score then "moderate"
  else "gap"

/-- Embeds `_calculate_scores` on one cell (lines 66-90):
`content_score = min(100, count/5*100)`, `avg_quality` from the item list,
`coverage_score = round(0.6*density + 0.4*quality, 1)`, then the status. -/
def scoreCell (c : Cell) : Cell :=
  let content_score : ℚ := min 100 (c.content_count / 5 * 100)
  let avg_quality : ℚ :=
    if c.content_items = [] then 0
    else (c.content_items.map ContentItem.quality).sum / c.content_items.length
  let coverage_score := round1 (content_score * (6/10) + avg_quality * (4/10))
  { c with
    avg_quality := avg_quality,
    coverage_score := coverage_score,
    status := statusOf coverage_score }

/-- Embeds `_calculate_scores` over the whole matrix. -/
def calculateScores (m : CoverageMatrix) : CoverageMatrix :=
  m.map (fun e => (e.1,
    ⟨scoreCell e.2.awareness, scoreCell e.2.consideration, scoreCell e.2.decision⟩))

/-- Embeds `analyze_coverage` (lines 38-64): re-initialize, aggregate every
record once, score every cell. -/
def analyzeCoverage (personas : List String) (rs : List ClassificationRecord) :
    CoverageMatrix :=
  calculateScores (aggregatePass (initMatrix personas) rs)

/-- The mutable `GapAnalyzer` object state: the persona roster and the
current `coverage_matrix`. -/
structure Analyzer where
  personas : List String
  coverage_matrix : CoverageMatrix
deriving DecidableEq

/-- Embeds `analyze_coverage` as a state transformer on the analyzer object:
line 40 re-initializes `self.coverage_matrix` before the record loop. -/
def analyzeCoverageS (a : Analyzer) (rs : List ClassificationRecord) : Analyzer :=
  { a with coverage_matrix := analyzeCoverage a.personas rs }

/-- Reads `content_count` at a (persona, stage) key, 0 when the key is absent. -/
def countAt (m : CoverageMatrix) (p s : String) : ℚ :=
  match findSC m p with
  | some sc => match getStage sc s with
    | some c => c.content_count
    | none => 0
  | none => 0

/-- Reads `content_items` at a (persona, stage) key, `[]` when absent. -/
def itemsAt (m : CoverageMatrix) (p s : String) : List ContentItem :=
  match findSC m p with
  | some sc => match getStage sc s with
    | some c => c.content_items
    | none => []
  | none => []

/-- All (persona, stage, cell) triples of the matrix, in the iteration
order of the nested loops (personas in insertion order, the three stages
in dict insertion order). -/
def cellTriples (m : CoverageMatrix) : List (String × String × Cell) :=
  m.flatMap (fun e =>
    [(e.1, "awareness", e.2.awareness),
     (e.1, "consideration", e.2.consideration),
     (e.1, "decision", e.2.decision)])

/-- Embeds `_calculate_priority` (`gap_analyzer.py` lines 112-121). -/
def calculatePriority (stage : String) (c : Cell) : ℚ :=
  let priority := 100 - c.coverage_score
  let priority :=
    if stage = "decision" then priority + 20
    else if stage = "consideration" then priority + 10
    else priority
  min 100 priority

/-- One entry of the list returned by `get_gaps` (lines 100-107). -/
structure Gap where
  persona : String
  stage : String
  stage_name : String
  coverage_score : ℚ
  content_count : ℚ
  priority : ℚ
deriving DecidableEq, Repr

def mkGap (p s : String) (c : Cell) : Gap :=
  { persona := p, stage := s, stage_name := stageName s,
    coverage_score := c.coverage_score, content_count := c.content_count,
    priority := calculatePriority s c }

/-- The sort order of `gaps.sort(key=lambda x: x["priority"], reverse=True)`:
descending by priority. -/
def gapGE (a b : Gap) : Prop := b.priority ≤ a.priority

instance : DecidableRel gapGE :=
  fun a b => inferInstanceAs (Decidable (b.priority ≤ a.priority))

instance : IsTotal Gap gapGE := ⟨fun a b => le_total b.priority a.priority⟩

instance : IsTrans Gap gapGE := ⟨fun _ _ _ hab hbc => le_trans hbc hab⟩

/-- The unsorted gap list built by the nested loops of `get_gaps`
(lines 94-107), in matrix iteration order. -/
def gapList (m : CoverageMatrix) : List Gap :=
  ((cellTriples m).filter (fun t => t.2.2.status == "gap")).map
    (fun t => mkGap t.1 t.2.1 t.2.2)

/-- Embeds `get_gaps` (lines 92-110).  Python's `list.sort` is stable; so is
`List.insertionSort` with the reflexive descending order `gapGE`, hence the
two produce the same list. -/
def getGaps (m : CoverageMatrix) : List Gap :=
  List.insertionSort gapGE (gapList m)

/-- One entry of the list returned by `get_strengths` (lines 123-140). -/
structure Strength where
  persona : String
  stage : String
  stage_name : String
  coverage_score : ℚ
  content_count : ℚ
  top_content : List ContentItem
deriving DecidableEq, Repr

/-- Embeds `get_strengths` (lines 123-140). -/
def getStrengths (m : CoverageMatrix) : List Strength :=
  ((cellTriples m).filter (fun t => t.2.2.status == "strong")).map
    (fun t =>
      { persona := t.1, stage := t.2.1, stage_name := stageName t.2.1,
        coverage_score := t.2.2.coverage_score,
        content_count := t.2.2.content_count,
        top_content := t.2.2.content_items.take 3 })

/-- One entry of the list returned by `get_moderate_areas` (lines 142-159). -/
structure ModerateArea where
  persona : String
  stage : String
  stage_name : String
  coverage_score : ℚ
  content_count : ℚ
  improvement_potential : ℚ
deriving DecidableEq, Repr

/-- Embeds `get_moderate_areas` (lines 142-159). -/
def getModerateAreas (m : CoverageMatrix) : List ModerateArea :=
  ((cellTriples m).filter (fun t => t.2.2.status == "moderate")).map
    (fun t =>
      { persona := t.1, stage := t.2.1, stage_name := stageName t.2.1,
        coverage_score := t.2.2.coverage_score,
        content_count := t.2.2.content_count,
        improvement_potential := 100 - t.2.2.coverage_score })

/-- The dictionary returned by `get_summary_stats` (lines 161-176). -/
structure SummaryStats where
  total_cells : ℕ
  gap_count : ℕ
  moderate_count : ℕ
  strong_count : ℕ
  gap_percentage : ℚ
  coverage_percentage : ℚ
  highest_priority_gap : Option Gap
deriving DecidableEq, Repr

/-- Embeds `get_summary_stats` (lines 161-176): `total_cells` comes from the
persona roster (`len(self.personas) * len(self.funnel_stages)`), the counts
from the matrix, and both percentages guard `total_cells > 0`. -/
def getSummaryStats (personas : List String) (m : CoverageMatrix) :
    SummaryStats :=
  let total_cells := personas.length * funnelStages.length
  let gaps := getGaps m
  let strengths := getStrengths m
  let moderate := getModerateAreas m
  { total_cells := total_cells,
    gap_count := gaps.length,
    moderate_count := moderate.length,
    strong_count := strengths.length,
    gap_percentage :=
      if 0 < total_cells then round1 ((gaps.length : ℚ) / total_cells * 100)
      else 0,
    coverage_percentage :=
      if 0 < total_cells then
        round1 (((strengths.length : ℚ) + moderate.length) / total_cells * 100)
      else 0,
    highest_priority_gap := gaps.head? }

/-- The per-persona stage pairs in the loop order of `get_persona_summary`
(`for stage in self.funnel_stages`). -/
def stagePairs (sc : StageCells) : List (String × Cell) :=
  [("awareness", sc.awareness), ("consideration", sc.consideration),
   ("decision", sc.decision)]

/-- The `max_score` / `max_stage` loop of `get_persona_summary`
(lines 216-226): strict `>` against an initial maximum of 0. -/
def strongestFold (sc : StageCells) : Option String :=
  ((stagePairs sc).foldl
    (fun acc e =>
      if acc.1 < e.2.coverage_score then (e.2.coverage_score, some e.1) else acc)
    ((0 : ℚ), (none : Option String))).2

/-- One value of the dictionary returned by `get_persona_summary`. -/
structure PersonaData where
  total_content : ℚ
  avg_coverage : ℚ
  stages_with_gaps : List String
  strongest_stage : Option String
deriving DecidableEq, Repr

/-- The per-persona body of `get_persona_summary` (lines 207-233). -/
def personaDataOf (sc : StageCells) : PersonaData :=
  let cells := stagePairs sc
  let scores := cells.map (fun e => e.2.coverage_score)
  { total_content := (cells.map (fun e => e.2.content_count)).sum,
    avg_coverage :=
      if scores = [] then 0 else round1 (scores.sum / scores.length),
    stages_with_gaps := (cells.filter (fun e => e.2.status == "gap")).map Prod.fst,
    strongest_stage := strongestFold sc }

/-- Embeds `get_persona_summary` (lines 203-235). -/
def getPersonaSummary (m : CoverageMatrix) : List (String × PersonaData) :=
  m.map (fun e => (e.1, personaDataOf e.2))

/-- The coverage score the matrix assigns to a stage key, 0 if the key is
not a funnel stage.  Used only to phrase the spec-side characterization of
`strongest_stage`. -/
def stageScore (sc : StageCells) (s : String) : ℚ :=
  match getStage sc s with
  | some c => c.coverage_score
  | none => 0

/-- Spec-side characterization of `strongest_stage`, written from the
claim: the first stage in the fixed order awareness, consideration,
decision whose coverage score equals the persona's maximum score and is
strictly greater than 0; `none` when no stage qualifies. -/
def specStrongestStage (sc : StageCells) : Option String :=
  let mx := max (max (stageScore sc "awareness") (stageScore sc "consideration"))
    (stageScore sc "decision")
  if stageScore sc "awareness" = mx ∧ 0 < stageScore sc "awareness" then
    some "awareness"
  else if stageScore sc "consideration" = mx ∧ 0 < stageScore sc "consideration" then
    some "consideration"
  else if stageScore sc "decision" = mx ∧ 0 < stageScore sc "decision" then
    some "decision"
  else none

/-- One entry of `priority_content_to_create` built by `_fallback_strategy`
(`strategy_generator.py` lines 181-191). -/
structure ContentRec where
  title : String
  type : String
  target_persona : String
  funnel_stage : String
  priority : String
  rationale : String
  key_topics : List String
  suggested_angle : String
  estimated_effort : String
deriving DecidableEq, Repr

/-- One entry of `content_improvements` (lines 196-203). -/
structure ContentImprovement where
  content_area : String
  current_issue : String
  recommendation : String
  impact : String
deriving DecidableEq, Repr

/-- One entry of a `quarterly_calendar` month list (schema of lines
100-111 of the oracle prompt; the fallback always leaves these empty). -/
structure CalendarEntry where
  week : ℕ
  content_title : String
  content_type : String
  target_persona : String
deriving DecidableEq, Repr

/-- Field `quarterly_calendar` (lines 204-208). -/
structure QuarterlyCalendar where
  month_1 : List CalendarEntry
  month_2 : List CalendarEntry
  month_3 : List CalendarEntry
deriving DecidableEq, Repr

/-- One value of `persona_specific_recommendations` (lines 209-217). -/
structure PersonaRec where
  key_insight : String
  content_priorities : List String
  messaging_themes : List String
  content_types_to_focus : List String
deriving DecidableEq, Repr

/-- One entry of `long_term_initiatives` (schema of lines 126-133; the
fallback always leaves this list empty). -/
structure LongTermInitiative where
  initiative : String
  timeline : String
  resources_needed : String
  expected_outcome : String
deriving DecidableEq, Repr

/-- One entry of `metrics_to_track` (lines 220-226). -/
structure TrackedMetric where
  metric : String
  why : String
  target : String
deriving DecidableEq, Repr

/-- The Strategy bundle returned by `_fallback_strategy` (lines 193-227). -/
structure Strategy where
  executive_summary : String
  priority_content_to_create : List ContentRec
  content_improvements : List ContentImprovement
  quarterly_calendar : QuarterlyCalendar
  persona_specific_recommendations : List (String × PersonaRec)
  quick_wins : List String
  long_term_initiatives : List LongTermInitiative
  metrics_to_track : List TrackedMetric
deriving DecidableEq, Repr

/-- The per-gap recommendation loop of `_fallback_strategy`
(lines 173-191): one recommendation for each of the first 5 gaps. -/
def fallbackPriorityContent (gaps : List Gap) : List ContentRec :=
  (gaps.take 5).map (fun gap =>
    let content_type :=
      if gap.stage = "decision" then "case_study"
      else if gap.stage = "consideration" then "whitepaper"
      else "blog_post"
    { title := "Content for " ++ gap.persona ++ " - " ++ gap.stage_name
        ++ " Stage",
      type := content_type,
      target_persona := gap.persona,
      funnel_stage := gap.stage,
      priority := if (70 : ℚ) < gap.priority then "high" else "medium",
      rationale := "Gap identified: No content for " ++ gap.persona ++ " at "
        ++ gap.stage_name ++ " stage",
      key_topics := [],
      suggested_angle := "Address key pain points",
      estimated_effort := "medium" })

/-- The placeholder per-persona recommendation of the fallback
(lines 210-215). -/
def fallbackPersonaRec : PersonaRec :=
  { key_insight := "Manual analysis recommended",
    content_priorities := [],
    messaging_themes := [],
    content_types_to_focus := [] }

/-- Embeds `_fallback_strategy` (lines 169-227).  Personas enter only through
their `name` field (`p["name"]`), so the roster is a list of names. -/
def fallbackStrategy (gaps : List Gap) (strengths : List Strength)
    (personas : List String) : Strategy :=
  { executive_summary := "Analysis identified " ++ toString gaps.length
      ++ " content gaps and " ++ toString strengths.length
      ++ " strong coverage areas. Priority should be given to creating content for the highest-priority gaps.",
    priority_content_to_create := fallbackPriorityContent gaps,
    content_improvements :=
      [{ content_area := "General",
         current_issue := "AI analysis unavailable for detailed recommendations",
         recommendation := "Review content manually for improvement opportunities",
         impact := "Variable" }],
    quarterly_calendar := { month_1 := [], month_2 := [], month_3 := [] },
    persona_specific_recommendations :=
      personas.map (fun n => (n, fallbackPersonaRec)),
    quick_wins := ["Review and update existing content titles and meta descriptions"],
    long_term_initiatives := [],
    metrics_to_track :=
      [{ metric := "Content per persona/stage",
         why := "Ensure coverage across all segments",
         target := "3-5 pieces per cell" }] }

/-- Spec-side description of one fallback recommendation, written from the
claim: `type` is stage-conditioned (decision → case_study, consideration →
whitepaper, otherwise blog_post), `priority` is "high" exactly when the
gap's priority exceeds 70 and "medium" otherwise. -/
def specFallbackRec (gap : Gap) : ContentRec :=
  { title := "Content for " ++ gap.persona ++ " - " ++ gap.stage_name
      ++ " Stage",
    type :=
      if gap.stage = "decision" then "case_study"
      else if gap.stage = "consideration" then "whitepaper"
      else "blog_post",
    target_persona := gap.persona,
    funnel_stage := gap.stage,
    priority := if (70 : ℚ) < gap.priority then "high" else "medium",
    rationale := "Gap identified: No content for " ++ gap.persona ++ " at "
      ++ gap.stage_name ++ " stage",
    key_topics := [],
    suggested_angle := "Address key pain points",
    estimated_effort := "medium" }


/-- Proof-internal restatement of the `max_score`/`max_stage` fold over the
three coverage scores alone. -/
def strongestFoldQ (a c d : ℚ) : Option String :=
  (([("awareness", a), ("consideration", c), ("decision", d)]).foldl
    (fun acc e => if acc.1 < e.2 then (e.2, some e.1) else acc)
    ((0 : ℚ), (none : Option String))).2

/-- Proof-internal restatement of `specStrongestStage` over the three
coverage scores alone. -/
def specQ (a c d : ℚ) : Option String :=
  let mx := max (max a c) d
  if a = mx ∧ 0 < a then some "awareness"
  else if c = mx ∧ 0 < c then some "consideration"
  else if d = mx ∧ 0 < d then some "decision"
  else none


/-- The item reference appended for a primary-persona hit (lines 51-55). -/
def refOf (r : ClassificationRecord) : ContentItem :=
  { title := r.original_title, source := r.original_source,
    quality := r.quality_score }

/-- The total `content_count` contribution of one record to the cell at a
(persona, stage) key that is present in the matrix: 1 for a primary hit
plus 0.5 per matching occurrence in `secondary_personas`. -/
def recordDelta (r : ClassificationRecord) (q t : String) : ℚ :=
  (if q = r.primary_persona ∧ t = r.funnel_stage ∧
      r.funnel_stage ∈ funnelStages then 1 else 0) +
  (if t = r.funnel_stage ∧ r.funnel_stage ∈ funnelStages
   then (r.secondary_personas.count q : ℚ) * (1/2) else 0)

/-- The total `content_count` contribution of a record sequence to a
present (persona, stage) cell. -/
def passDelta (rs : List ClassificationRecord) (q t : String) : ℚ :=
  (rs.map (fun r => recordDelta r q t)).sum

/-! ## Theorems -/

/-- C4: Status thresholds are exact and inclusive: for every cell, a
coverage_score of exactly 70.0 yields status strong, 69.9 yields moderate,
40.0 yields moderate, and 39.9 yields gap. -/
theorem C4_status_thresholds (c : Cell) :
    ((scoreCell c).coverage_score = 70 → (scoreCell c).status = "strong") ∧
    ((scoreCell c).coverage_score = 699/10 → (scoreCell c).status = "moderate") ∧
    ((scoreCell c).coverage_score = 40 → (scoreCell c).status = "moderate") ∧
    ((scoreCell c).coverage_score = 399/10 → (scoreCell c).status = "gap") := by
  have hs : (scoreCell c).status = statusOf (scoreCell c).coverage_score := rfl
  refine ⟨fun h => ?_, fun h => ?_, fun h => ?_, fun h => ?_⟩ <;>
    rw [hs, h] <;> norm_num [statusOf, SCORING_THRESHOLDS]

/-- Witness for C4: concrete cells whose scores land exactly on 70.0,
69.9, 40.0 and 39.9. -/
theorem C4_status_thresholds_witness :
    (scoreCell ⟨5, [⟨"a", "b", 25⟩, ⟨"a", "b", 25⟩, ⟨"a", "b", 25⟩,
        ⟨"a", "b", 25⟩, ⟨"a", "b", 25⟩], 0, 0, "gap"⟩).status = "strong" ∧
    (scoreCell ⟨3, [⟨"a", "b", 339/4⟩, ⟨"a", "b", 339/4⟩, ⟨"a", "b", 339/4⟩],
        0, 0, "gap"⟩).status = "moderate" ∧
    (scoreCell ⟨2, [⟨"a", "b", 40⟩, ⟨"a", "b", 40⟩], 0, 0, "gap"⟩).status =
      "moderate" ∧
    (scoreCell ⟨2, [⟨"a", "b", 159/4⟩, ⟨"a", "b", 159/4⟩], 0, 0, "gap"⟩).status =
      "gap" := by
  refine ⟨(C4_status_thresholds _).1 ?_, (C4_status_thresholds _).2.1 ?_,
    (C4_status_thresholds _).2.2.1 ?_, (C4_status_thresholds _).2.2.2 ?_⟩ <;>
    simp [scoreCell, round1, round_eq] <;> norm_num

/-- C7: `get_summary_stats` on an empty roster (`total_cells = 0`) returns
`gap_percentage = 0` and `coverage_percentage = 0`; the `total_cells > 0`
guards make both percentage computations total (no division is attempted
when the roster is empty). -/
theorem C7_empty_roster_percentages (m : CoverageMatrix) :
    (getSummaryStats [] m).gap_percentage = 0 ∧
    (getSummaryStats [] m).coverage_percentage = 0 := by
  constructor <;> simp [getSummaryStats]

/-- Rounding to one decimal never pushes a value that is at most 60 above 60. -/
theorem round1_le_sixty {x : ℚ} (hx : x ≤ 60) : round1 x ≤ 60 := by
  have h1 : round (x * 10) ≤ 600 := by
    rw [round_eq]
    have h2 : (⌊x * 10 + 1/2⌋ : ℤ) ≤ ⌊(1201 : ℚ)/2⌋ := Int.floor_mono (by linarith)
    have h3 : (⌊(1201 : ℚ)/2⌋ : ℤ) = 600 := by norm_num
    omega
  rw [round1]
  have h4 : ((round (x * 10) : ℤ) : ℚ) ≤ 600 := by exact_mod_cast h1
  linarith

/-- C9: A cell that received only secondary-persona contributions
(`content_items` empty, `content_count > 0`) always scores
`avg_quality = 0` and `coverage_score ≤ 60.0`, so it can never reach
status strong. -/
theorem C9_secondary_only_cell_never_strong (c : Cell)
    (hitems : c.content_items = []) (_hcount : 0 < c.content_count) :
    (scoreCell c).avg_quality = 0 ∧ (scoreCell c).coverage_score ≤ 60 ∧
    (scoreCell c).status ≠ "strong" := by
  have havg : (scoreCell c).avg_quality = 0 := by simp [scoreCell, hitems]
  have hscore : (scoreCell c).coverage_score =
      round1 (min 100 (c.content_count / 5 * 100) * (6/10)) := by
    simp [scoreCell, hitems]
  have hle : (scoreCell c).coverage_score ≤ 60 := by
    rw [hscore]
    apply round1_le_sixty
    have h5 : min 100 (c.content_count / 5 * 100) ≤ 100 := min_le_left _ _
    linarith
  refine ⟨havg, hle, ?_⟩
  have hs : (scoreCell c).status = statusOf (scoreCell c).coverage_score := rfl
  rw [hs, statusOf]
  have hno : ¬ (SCORING_THRESHOLDS.strong ≤ (scoreCell c).coverage_score) := by
    simp only [SCORING_THRESHOLDS]
    intro hcon
    linarith
  rw [if_neg hno]
  split <;> simp

/-- Witness for C9: a cell holding three half-weight contributions and no
item references. -/
theorem C9_secondary_only_cell_never_strong_witness :
    (scoreCell ⟨3, [], 0, 0, "gap"⟩).avg_quality = 0 ∧
    (scoreCell ⟨3, [], 0, 0, "gap"⟩).coverage_score ≤ 60 ∧
    (scoreCell ⟨3, [], 0, 0, "gap"⟩).status ≠ "strong" :=
  C9_secondary_only_cell_never_strong ⟨3, [], 0, 0, "gap"⟩ rfl (by norm_num)

/-- C8: The local fallback strategy synthesizer produces one
priority-content recommendation per gap for the first 5 gaps — with `type`
case_study for decision, whitepaper for consideration, blog_post otherwise,
and `priority` "high" exactly when the gap's priority exceeds 70 — and
always returns a complete Strategy whose oracle-filled fields are empty or
placeholder collections (empty calendar months, one placeholder
recommendation per persona, no long-term initiatives). -/
theorem C8_fallback_strategy (gaps : List Gap) (strengths : List Strength)
    (personas : List String) :
    (fallbackStrategy gaps strengths personas).priority_content_to_create =
      (gaps.take 5).map specFallbackRec ∧
    (fallbackStrategy gaps strengths personas).quarterly_calendar =
      ⟨[], [], []⟩ ∧
    (fallbackStrategy gaps strengths personas).persona_specific_recommendations =
      personas.map (fun n => (n, fallbackPersonaRec)) ∧
    (fallbackStrategy gaps strengths personas).long_term_initiatives = [] :=
  ⟨rfl, rfl, rfl, rfl⟩

/-- C3: For every cell, the coverage score is
`round(min(100, count/5*100) * 0.6 + avg_quality * 0.4, 1)` with
`avg_quality` the mean item quality (0 when no items); and the one-persona
scenario — roster ["CMO"], a single primary record at stage decision with
quality 80 — yields content_count 1, content_density 20, avg_quality 80,
coverage_score 44.0 and status moderate. -/
theorem C3_scoring_formula_and_scenario :
    (∀ c : Cell, (scoreCell c).coverage_score =
      round1 (min 100 (c.content_count / 5 * 100) * (6/10) +
        (if c.content_items = [] then 0
         else (c.content_items.map ContentItem.quality).sum /
           c.content_items.length) * (4/10))) ∧
    analyzeCoverage ["CMO"] [⟨"CMO", [], "decision", 80, "t", "s"⟩] =
      [("CMO", ⟨emptyCell, emptyCell,
        ⟨1, [⟨"t", "s", 80⟩], 80, 44, "moderate"⟩⟩)] ∧
    min 100 ((1 : ℚ) / 5 * 100) = 20 := by
  refine ⟨fun c => rfl, ?_, by norm_num⟩
  simp [analyzeCoverage, aggregatePass, applyRecord, applyPrimary,
    applySecondaries, initMatrix, updateCell, setStage, findSC,
    calculateScores, scoreCell, emptyCell, funnelStages, statusOf,
    SCORING_THRESHOLDS, round1, round_eq]
  norm_num

/-- The strict-`>` maximum fold over three scores returns the first stage
achieving the (strictly positive) maximum. -/
theorem strongestFoldQ_eq_specQ (a c d : ℚ) :
    strongestFoldQ a c d = specQ a c d := by
  simp only [strongestFoldQ, specQ, List.foldl]
  by_cases h1 : 0 < a
  · rw [if_pos h1]; dsimp only
    by_cases h2 : a < c
    · rw [if_pos h2]; dsimp only
      by_cases h3 : c < d
      · rw [if_pos h3]; dsimp only
        have hmx : max (max a c) d = d :=
          max_eq_right (max_le (by linarith) (by linarith))
        have hn1 : ¬(a = max (max a c) d ∧ 0 < a) := by
          rintro ⟨he, -⟩; rw [hmx] at he; linarith
        have hn2 : ¬(c = max (max a c) d ∧ 0 < c) := by
          rintro ⟨he, -⟩; rw [hmx] at he; linarith
        rw [if_neg hn1, if_neg hn2, if_pos ⟨hmx.symm, by linarith⟩]
      · rw [if_neg h3]; dsimp only
        have hmx : max (max a c) d = c := by
          rw [max_eq_right (le_of_lt h2), max_eq_left (le_of_not_lt h3)]
        have hn1 : ¬(a = max (max a c) d ∧ 0 < a) := by
          rintro ⟨he, -⟩; rw [hmx] at he; linarith
        rw [if_neg hn1, if_pos ⟨hmx.symm, by linarith⟩]
    · rw [if_neg h2]; dsimp only
      by_cases h3 : a < d
      · rw [if_pos h3]; dsimp only
        have hc2 : c ≤ a := le_of_not_lt h2
        have hmx : max (max a c) d = d :=
          max_eq_right (max_le (by linarith) (by linarith))
        have hn1 : ¬(a = max (max a c) d ∧ 0 < a) := by
          rintro ⟨he, -⟩; rw [hmx] at he; linarith
        have hn2 : ¬(c = max (max a c) d ∧ 0 < c) := by
          rintro ⟨he, -⟩; rw [hmx] at he; linarith
        rw [if_neg hn1, if_neg hn2, if_pos ⟨hmx.symm, by linarith⟩]
      · rw [if_neg h3]; dsimp only
        have hmx : max (max a c) d = a := by
          rw [max_eq_left (le_of_not_lt h2), max_eq_left (le_of_not_lt h3)]
        rw [if_pos ⟨hmx.symm, h1⟩]
  · rw [if_neg h1]; dsimp only
    have ha0 : a ≤ 0 := le_of_not_lt h1
    by_cases h2 : (0:ℚ) < c
    · rw [if_pos h2]; dsimp only
      by_cases h3 : c < d
      · rw [if_pos h3]; dsimp only
        have hmx : max (max a c) d = d :=
          max_eq_right (max_le (by linarith) (by linarith))
        have hn1 : ¬(a = max (max a c) d ∧ 0 < a) := by
          rintro ⟨-, hp⟩; exact h1 hp
        have hn2 : ¬(c = max (max a c) d ∧ 0 < c) := by
          rintro ⟨he, -⟩; rw [hmx] at he; linarith
        rw [if_neg hn1, if_neg hn2, if_pos ⟨hmx.symm, by linarith⟩]
      · rw [if_neg h3]; dsimp only
        have hmx : max (max a c) d = c := by
          rw [max_eq_right (show a ≤ c by linarith),
            max_eq_left (le_of_not_lt h3)]
        have hn1 : ¬(a = max (max a c) d ∧ 0 < a) := by
          rintro ⟨-, hp⟩; exact h1 hp
        rw [if_neg hn1, if_pos ⟨hmx.symm, h2⟩]
    · rw [if_neg h2]; dsimp only
      have hc0 : c ≤ 0 := le_of_not_lt h2
      by_cases h3 : (0:ℚ) < d
      · rw [if_pos h3]; dsimp only
        have hmx : max (max a c) d = d :=
          max_eq_right (le_trans (max_le ha0 hc0) (le_of_lt h3))
        have hn1 : ¬(a = max (max a c) d ∧ 0 < a) := by
          rintro ⟨-, hp⟩; exact h1 hp
        have hn2 : ¬(c = max (max a c) d ∧ 0 < c) := by
          rintro ⟨-, hp⟩; exact h2 hp
        rw [if_neg hn1, if_neg hn2, if_pos ⟨hmx.symm, h3⟩]
      · rw [if_neg h3]; dsimp only
        have hn1 : ¬(a = max (max a c) d ∧ 0 < a) := by
          rintro ⟨-, hp⟩; exact h1 hp
        have hn2 : ¬(c = max (max a c) d ∧ 0 < c) := by
          rintro ⟨-, hp⟩; exact h2 hp
        have hn3 : ¬(d = max (max a c) d ∧ 0 < d) := by
          rintro ⟨-, hp⟩; exact h3 hp
        rw [if_neg hn1, if_neg hn2, if_neg hn3]

/-- The `max_stage` fold of `get_persona_summary` equals the spec-side
first-maximal-positive-stage characterization. -/
theorem strongestFold_eq_spec (sc : StageCells) :
    strongestFold sc = specStrongestStage sc := by
  have h1 : strongestFold sc = strongestFoldQ sc.awareness.coverage_score
      sc.consideration.coverage_score sc.decision.coverage_score := rfl
  have h2 : specStrongestStage sc = specQ sc.awareness.coverage_score
      sc.consideration.coverage_score sc.decision.coverage_score := by
    simp [specStrongestStage, specQ, stageScore, getStage]
  rw [h1, h2, strongestFoldQ_eq_specQ]

/-- C6: For every persona in the matrix, `get_persona_summary` reports
`strongest_stage` as the first stage in the fixed order awareness,
consideration, decision whose coverage score equals the persona's maximum
and is strictly greater than 0 (strict `>` against an initial maximum of
0); when all three scores are 0 the strongest stage is `none`. -/
theorem C6_strongest_stage (m : CoverageMatrix) (e : String × StageCells)
    (he : e ∈ m) :
    (e.1, personaDataOf e.2) ∈ getPersonaSummary m ∧
    (personaDataOf e.2).strongest_stage = specStrongestStage e.2 ∧
    (e.2.awareness.coverage_score = 0 ∧ e.2.consideration.coverage_score = 0 ∧
      e.2.decision.coverage_score = 0 →
      (personaDataOf e.2).strongest_stage = none) := by
  refine ⟨List.mem_map.mpr ⟨e, he, rfl⟩, strongestFold_eq_spec e.2, ?_⟩
  rintro ⟨ha, hc, hd⟩
  rw [show (personaDataOf e.2).strongest_stage = specStrongestStage e.2 from
    strongestFold_eq_spec e.2]
  simp [specStrongestStage, stageScore, getStage, ha, hc, hd]

/-- Witness for C6: a persona whose consideration and decision cells tie at
the maximal score 7 reports consideration, the first maximal stage. -/
theorem C6_strongest_stage_witness :
    (personaDataOf ⟨⟨0, [], 0, 5, "gap"⟩, ⟨0, [], 0, 7, "gap"⟩,
      ⟨0, [], 0, 7, "gap"⟩⟩).strongest_stage = some "consideration" := by
  have h := (C6_strongest_stage
    [("A", ⟨⟨0, [], 0, 5, "gap"⟩, ⟨0, [], 0, 7, "gap"⟩, ⟨0, [], 0, 7, "gap"⟩⟩)]
    ("A", ⟨⟨0, [], 0, 5, "gap"⟩, ⟨0, [], 0, 7, "gap"⟩, ⟨0, [], 0, 7, "gap"⟩⟩)
    (List.mem_singleton.mpr rfl)).2.1
  rw [h]
  simp [specStrongestStage, stageScore, getStage]
  norm_num

/-- Reading a stage after an in-place stage update: only the (valid)
updated stage key changes. -/
theorem getStage_setStage (sc : StageCells) (s : String) (f : Cell → Cell)
    (t : String) :
    getStage (setStage sc s f) t =
      if t = s ∧ s ∈ funnelStages then (getStage sc t).map f
      else getStage sc t := by
  by_cases h1 : s = "awareness"
  · subst h1
    by_cases ht : t = "awareness"
    · subst ht; simp [setStage, getStage, funnelStages]
    · simp [setStage, getStage, funnelStages, ht]
  · by_cases h2 : s = "consideration"
    · subst h2
      by_cases ht : t = "consideration"
      · subst ht; simp [setStage, getStage, funnelStages]
      · simp [setStage, getStage, funnelStages, ht]
    · by_cases h3 : s = "decision"
      · subst h3
        by_cases ht : t = "decision"
        · subst ht; simp [setStage, getStage, funnelStages]
        · simp [setStage, getStage, funnelStages, ht]
      · simp [setStage, getStage, funnelStages, h1, h2, h3]

/-- A valid funnel stage key is always present in a stage dict. -/
theorem getStage_isSome_of_mem (sc : StageCells) {s : String}
    (hs : s ∈ funnelStages) : (getStage sc s).isSome := by
  simp only [funnelStages, List.mem_cons, List.not_mem_nil, or_false] at hs
  rcases hs with h | h | h <;> subst h <;> simp [getStage]

/-- Persona lookup after an in-place cell update. -/
theorem findSC_updateCell (m : CoverageMatrix) (p s : String) (f : Cell → Cell)
    (q : String) :
    findSC (updateCell m p s f) q =
      if q = p then (findSC m q).map (fun sc => setStage sc s f)
      else findSC m q := by
  induction m with
  | nil => by_cases h : q = p <;> simp [updateCell, findSC, h]
  | cons e rest ih =>
    obtain ⟨n, sc⟩ := e
    simp only [updateCell, List.map_cons]
    rw [updateCell] at ih
    by_cases hep : n = p
    · rw [if_pos hep]
      by_cases hnq : n = q
      · have hqp : q = p := by rw [← hnq, hep]
        rw [if_pos hqp]
        simp [findSC, hnq]
      · have hqp : ¬ q = p := fun h => hnq (by rw [hep, h])
        rw [if_neg hqp]
        simp [findSC, hnq, ih, hqp]
    · rw [if_neg hep]
      by_cases hnq : n = q
      · have hqp : ¬ q = p := fun h => hep (by rw [hnq, h])
        rw [if_neg hqp]
        simp [findSC, hnq]
      · by_cases hqp : q = p
        · subst hqp
          simp [findSC, hnq, hep, ih]
        · rw [if_neg hqp]
          simp [findSC, hnq, hep, ih, hqp]

/-- In-place cell updates never change which persona keys are present. -/
theorem findSC_isSome_updateCell (m : CoverageMatrix) (p s : String)
    (f : Cell → Cell) (q : String) :
    (findSC (updateCell m p s f) q).isSome = (findSC m q).isSome := by
  rw [findSC_updateCell]
  by_cases h : q = p
  · rw [if_pos h]
    cases findSC m q <;> rfl
  · rw [if_neg h]

/-- Rewrites `countAt` through `Option` combinators. -/
theorem countAt_def (m : CoverageMatrix) (p s : String) :
    countAt m p s = (((findSC m p).bind (fun sc => getStage sc s)).map
      Cell.content_count).getD 0 := by
  cases h1 : findSC m p with
  | none => simp [countAt, h1]
  | some sc => cases h2 : getStage sc s <;> simp [countAt, h1, h2]

/-- Rewrites `itemsAt` through `Option` combinators. -/
theorem itemsAt_def (m : CoverageMatrix) (p s : String) :
    itemsAt m p s = (((findSC m p).bind (fun sc => getStage sc s)).map
      Cell.content_items).getD [] := by
  cases h1 : findSC m p with
  | none => simp [itemsAt, h1]
  | some sc => cases h2 : getStage sc s <;> simp [itemsAt, h1, h2]

/-- Effect of one in-place cell update on `content_count` at any key. -/
theorem countAt_updateCell (m : CoverageMatrix) (p s q t : String)
    (f : Cell → Cell) (δ : ℚ)
    (hf : ∀ c, (f c).content_count = c.content_count + δ) :
    countAt (updateCell m p s f) q t =
      countAt m q t +
        (if q = p ∧ t = s ∧ (findSC m q).isSome ∧ s ∈ funnelStages
         then δ else 0) := by
  rw [countAt_def, countAt_def, findSC_updateCell]
  by_cases hqp : q = p
  · rw [if_pos hqp]
    cases hm : findSC m q with
    | none => simp
    | some sc =>
      by_cases hts : t = s ∧ s ∈ funnelStages
      · obtain ⟨ht, hs⟩ := hts
        subst ht
        have hg := getStage_isSome_of_mem sc hs
        cases hgc : getStage sc t with
        | none => rw [hgc] at hg; simp at hg
        | some c => simp [getStage_setStage, hgc, hf, hs, hqp]
      · have h1 : getStage (setStage sc s f) t = getStage sc t := by
          rw [getStage_setStage, if_neg hts]
        cases hgc : getStage sc t with
        | none => simp [h1, hgc, hts]
        | some c => simp [h1, hgc, hts]
  · rw [if_neg hqp]
    simp [hqp]

/-- Effect of one in-place cell update on `content_items` at any key. -/
theorem itemsAt_updateCell (m : CoverageMatrix) (p s q t : String)
    (f : Cell → Cell) (its : List ContentItem)
    (hf : ∀ c, (f c).content_items = c.content_items ++ its) :
    itemsAt (updateCell m p s f) q t =
      itemsAt m q t ++
        (if q = p ∧ t = s ∧ (findSC m q).isSome ∧ s ∈ funnelStages
         then its else []) := by
  rw [itemsAt_def, itemsAt_def, findSC_updateCell]
  by_cases hqp : q = p
  · rw [if_pos hqp]
    cases hm : findSC m q with
    | none => simp
    | some sc =>
      by_cases hts : t = s ∧ s ∈ funnelStages
      · obtain ⟨ht, hs⟩ := hts
        subst ht
        have hg := getStage_isSome_of_mem sc hs
        cases hgc : getStage sc t with
        | none => rw [hgc] at hg; simp at hg
        | some c => simp [getStage_setStage, hgc, hf, hs, hqp]
      · have h1 : getStage (setStage sc s f) t = getStage sc t := by
          rw [getStage_setStage, if_neg hts]
        cases hgc : getStage sc t with
        | none => simp [h1, hgc, hts]
        | some c => simp [h1, hgc, hts]
  · rw [if_neg hqp]
    simp [hqp]

/-- The primary-persona step never changes which persona keys exist. -/
theorem findSC_isSome_applyPrimary (m : CoverageMatrix)
    (r : ClassificationRecord) (q : String) :
    (findSC (applyPrimary m r) q).isSome = (findSC m q).isSome := by
  rw [applyPrimary]
  split
  · split
    · rw [findSC_isSome_updateCell]
    · rfl
  · rfl

/-- Effect of the primary-persona step on `content_count` at any key. -/
theorem countAt_applyPrimary (m : CoverageMatrix) (r : ClassificationRecord)
    (q t : String) :
    countAt (applyPrimary m r) q t =
      countAt m q t +
        (if q = r.primary_persona ∧ t = r.funnel_stage ∧
            (findSC m q).isSome ∧ r.funnel_stage ∈ funnelStages
         then 1 else 0) := by
  rw [applyPrimary]
  by_cases hp : (findSC m r.primary_persona).isSome
  · rw [if_pos hp]
    by_cases hst : r.funnel_stage ∈ funnelStages
    · rw [if_pos hst]
      exact countAt_updateCell m r.primary_persona r.funnel_stage q t _ 1
        (fun c => rfl)
    · rw [if_neg hst]
      simp [hst]
  · rw [if_neg hp]
    have hno : ¬(q = r.primary_persona ∧ t = r.funnel_stage ∧
        (findSC m q).isSome ∧ r.funnel_stage ∈ funnelStages) := by
      rintro ⟨hq, -, hsome, -⟩
      rw [hq] at hsome
      exact hp hsome
    simp [hno]

/-- Effect of the primary-persona step on `content_items` at any key. -/
theorem itemsAt_applyPrimary (m : CoverageMatrix) (r : ClassificationRecord)
    (q t : String) :
    itemsAt (applyPrimary m r) q t =
      itemsAt m q t ++
        (if q = r.primary_persona ∧ t = r.funnel_stage ∧
            (findSC m q).isSome ∧ r.funnel_stage ∈ funnelStages
         then [refOf r] else []) := by
  rw [applyPrimary]
  by_cases hp : (findSC m r.primary_persona).isSome
  · rw [if_pos hp]
    by_cases hst : r.funnel_stage ∈ funnelStages
    · rw [if_pos hst]
      exact itemsAt_updateCell m r.primary_persona r.funnel_stage q t _
        [refOf r] (fun c => rfl)
    · rw [if_neg hst]
      simp [hst]
  · rw [if_neg hp]
    have hno : ¬(q = r.primary_persona ∧ t = r.funnel_stage ∧
        (findSC m q).isSome ∧ r.funnel_stage ∈ funnelStages) := by
      rintro ⟨hq, -, hsome, -⟩
      rw [hq] at hsome
      exact hp hsome
    simp [hno]

/-- One secondary-persona iteration of the loop at lines 57-61, over an
arbitrary candidate name `sp` and stage key `st`. -/
theorem countAt_secondaryStep (m : CoverageMatrix) (st sp q t : String) :
    countAt (if (findSC m sp).isSome then
        (if st ∈ funnelStages then
          updateCell m sp st (fun c =>
            { c with content_count := c.content_count + 1/2 })
         else m)
      else m) q t =
      countAt m q t +
        (if q = sp ∧ t = st ∧ (findSC m q).isSome ∧ st ∈ funnelStages
         then 1/2 else 0) := by
  by_cases hp : (findSC m sp).isSome
  · rw [if_pos hp]
    by_cases hst : st ∈ funnelStages
    · rw [if_pos hst]
      exact countAt_updateCell m sp st q t _ (1/2) (fun c => rfl)
    · rw [if_neg hst]
      simp [hst]
  · rw [if_neg hp]
    have hno : ¬(q = sp ∧ t = st ∧ (findSC m q).isSome ∧ st ∈ funnelStages) := by
      rintro ⟨hq, -, hsome, -⟩
      rw [hq] at hsome
      exact hp hsome
    simp [hno]

/-- One secondary-persona iteration never changes which keys exist. -/
theorem findSC_isSome_secondaryStep (m : CoverageMatrix) (st sp q : String) :
    (findSC (if (findSC m sp).isSome then
        (if st ∈ funnelStages then
          updateCell m sp st (fun c =>
            { c with content_count := c.content_count + 1/2 })
         else m)
      else m) q).isSome = (findSC m q).isSome := by
  split
  · split
    · rw [findSC_isSome_updateCell]
    · rfl
  · rfl

/-- One secondary-persona iteration never touches any item list. -/
theorem itemsAt_secondaryStep (m : CoverageMatrix) (st sp q t : String) :
    itemsAt (if (findSC m sp).isSome then
        (if st ∈ funnelStages then
          updateCell m sp st (fun c =>
            { c with content_count := c.content_count + 1/2 })
         else m)
      else m) q t = itemsAt m q t := by
  by_cases hp : (findSC m sp).isSome
  · rw [if_pos hp]
    by_cases hst : st ∈ funnelStages
    · rw [if_pos hst]
      rw [itemsAt_updateCell m sp st q t _ [] (fun c => by simp)]
      simp
    · rw [if_neg hst]
  · rw [if_neg hp]

/-- The whole secondary-persona loop adds 0.5 per matching occurrence to
the same-stage cell of each present persona and nothing else. -/
theorem countAt_secondaryFold (l : List String) (m : CoverageMatrix)
    (st q t : String) :
    countAt (l.foldl (fun acc sp =>
      if (findSC acc sp).isSome then
        if st ∈ funnelStages then
          updateCell acc sp st (fun c =>
            { c with content_count := c.content_count + 1/2 })
        else acc
      else acc) m) q t =
      countAt m q t +
        (if (findSC m q).isSome ∧ t = st ∧ st ∈ funnelStages
         then (l.count q : ℚ) * (1/2) else 0) := by
  induction l generalizing m with
  | nil => simp
  | cons sp l ih =>
    rw [List.foldl_cons, ih, countAt_secondaryStep, findSC_isSome_secondaryStep]
    by_cases hP1 : (findSC m q).isSome
    · by_cases hP2 : t = st
      · by_cases hP3 : st ∈ funnelStages
        · by_cases hq : q = sp
          · subst hq
            simp [hP1, hP2, hP3, List.count_cons]
            ring
          · have : ¬ sp = q := fun h => hq h.symm
            simp [hP1, hP2, hP3, hq, List.count_cons, this]
        · simp [hP3]
      · simp [hP2]
    · simp [hP1]

/-- The secondary-persona loop of one record (lines 57-61). -/
theorem countAt_applySecondaries (m : CoverageMatrix)
    (r : ClassificationRecord) (q t : String) :
    countAt (applySecondaries m r) q t =
      countAt m q t +
        (if (findSC m q).isSome ∧ t = r.funnel_stage ∧
            r.funnel_stage ∈ funnelStages
         then (r.secondary_personas.count q : ℚ) * (1/2) else 0) :=
  countAt_secondaryFold r.secondary_personas m r.funnel_stage q t

/-- The secondary-persona loop never appends item references. -/
theorem itemsAt_applySecondaries (m : CoverageMatrix)
    (r : ClassificationRecord) (q t : String) :
    itemsAt (applySecondaries m r) q t = itemsAt m q t := by
  rw [applySecondaries]
  induction r.secondary_personas generalizing m with
  | nil => rfl
  | cons sp l ih =>
    rw [List.foldl_cons, ih, itemsAt_secondaryStep]

/-- The secondary-persona loop never changes which keys exist. -/
theorem findSC_isSome_applySecondaries (m : CoverageMatrix)
    (r : ClassificationRecord) (q : String) :
    (findSC (applySecondaries m r) q).isSome = (findSC m q).isSome := by
  rw [applySecondaries]
  induction r.secondary_personas generalizing m with
  | nil => rfl
  | cons sp l ih =>
    rw [List.foldl_cons, ih, findSC_isSome_secondaryStep]

/-- Processing one record never changes which keys exist. -/
theorem findSC_isSome_applyRecord (m : CoverageMatrix)
    (r : ClassificationRecord) (q : String) :
    (findSC (applyRecord m r) q).isSome = (findSC m q).isSome := by
  rw [applyRecord, findSC_isSome_applySecondaries, findSC_isSome_applyPrimary]

/-- Net `content_count` effect of one record at any key. -/
theorem countAt_applyRecord (m : CoverageMatrix) (r : ClassificationRecord)
    (q t : String) :
    countAt (applyRecord m r) q t =
      countAt m q t +
        (if (findSC m q).isSome then recordDelta r q t else 0) := by
  rw [applyRecord, countAt_applySecondaries, findSC_isSome_applyPrimary,
    countAt_applyPrimary, recordDelta]
  by_cases h4 : q = r.primary_persona
  · subst h4
    by_cases h1 : (findSC m r.primary_persona).isSome <;>
      by_cases h2 : t = r.funnel_stage <;>
      by_cases h3 : r.funnel_stage ∈ funnelStages <;>
      simp [h1, h2, h3] <;> ring
  · by_cases h1 : (findSC m q).isSome <;>
      by_cases h2 : t = r.funnel_stage <;>
      by_cases h3 : r.funnel_stage ∈ funnelStages <;>
      simp [h1, h2, h3, h4] <;> ring

/-- The aggregation loop never changes which keys exist. -/
theorem findSC_isSome_aggregatePass (rs : List ClassificationRecord)
    (m : CoverageMatrix) (q : String) :
    (findSC (aggregatePass m rs) q).isSome = (findSC m q).isSome := by
  induction rs generalizing m with
  | nil => rfl
  | cons r rs ih =>
    have h0 : aggregatePass m (r :: rs) = aggregatePass (applyRecord m r) rs :=
      rfl
    rw [h0, ih, findSC_isSome_applyRecord]

/-- Net `content_count` effect of a whole record sequence at any key. -/
theorem countAt_aggregatePass (rs : List ClassificationRecord)
    (m : CoverageMatrix) (q t : String) :
    countAt (aggregatePass m rs) q t =
      countAt m q t +
        (if (findSC m q).isSome then passDelta rs q t else 0) := by
  induction rs generalizing m with
  | nil => simp [aggregatePass, passDelta]
  | cons r rs ih =>
    have h0 : aggregatePass m (r :: rs) = aggregatePass (applyRecord m r) rs :=
      rfl
    rw [h0, ih, countAt_applyRecord, findSC_isSome_applyRecord]
    by_cases h1 : (findSC m q).isSome <;> simp [h1, passDelta] <;> ring

/-- Persona lookup in a freshly initialized matrix. -/
theorem findSC_initMatrix (ps : List String) (q : String) :
    findSC (initMatrix ps) q =
      if q ∈ ps then some ⟨emptyCell, emptyCell, emptyCell⟩ else none := by
  induction ps with
  | nil => simp [initMatrix, findSC]
  | cons n ps ih =>
    by_cases h : n = q
    · subst h
      simp [initMatrix, findSC, ih]
    · have h2 : ¬ q = n := fun hh => h hh.symm
      rw [initMatrix] at ih
      by_cases h3 : q ∈ ps <;>
        simp [initMatrix, findSC, ih, h, h2, h3, List.mem_cons]

/-- Every cell of a freshly initialized matrix has `content_count = 0`. -/
theorem countAt_initMatrix (ps : List String) (q t : String) :
    countAt (initMatrix ps) q t = 0 := by
  rw [countAt_def, findSC_initMatrix]
  by_cases h : q ∈ ps
  · rw [if_pos h]
    rw [Option.some_bind]
    rw [getStage]
    split_ifs <;> simp [emptyCell]
  · rw [if_neg h]
    rfl

/-- C5: During aggregation, for every record — a known primary persona with
a known stage bumps exactly that cell's count by 1 and appends exactly one
`{title, source, quality}` reference; each matching secondary-persona
occurrence adds exactly 0.5 to that persona's same-stage cell with no
reference appended anywhere; and an unknown primary persona leaves the
matrix unchanged by the primary step. -/
theorem C5_aggregation_effects (m : CoverageMatrix)
    (r : ClassificationRecord) :
    ((findSC m r.primary_persona).isSome → r.funnel_stage ∈ funnelStages →
      countAt (applyPrimary m r) r.primary_persona r.funnel_stage =
        countAt m r.primary_persona r.funnel_stage + 1 ∧
      itemsAt (applyPrimary m r) r.primary_persona r.funnel_stage =
        itemsAt m r.primary_persona r.funnel_stage ++ [refOf r]) ∧
    (∀ q t, countAt (applySecondaries m r) q t =
        countAt m q t +
          (if (findSC m q).isSome ∧ t = r.funnel_stage ∧
              r.funnel_stage ∈ funnelStages
           then (r.secondary_personas.count q : ℚ) * (1/2) else 0) ∧
      itemsAt (applySecondaries m r) q t = itemsAt m q t) ∧
    ((findSC m r.primary_persona).isSome = false → applyPrimary m r = m) := by
  refine ⟨fun hp hs => ⟨?_, ?_⟩,
    fun q t => ⟨countAt_applySecondaries m r q t,
      itemsAt_applySecondaries m r q t⟩,
    fun hp => ?_⟩
  · rw [countAt_applyPrimary]
    simp [hp, hs]
  · rw [itemsAt_applyPrimary]
    simp [hp, hs]
  · rw [applyPrimary]
    simp [hp]

/-- Witness for C5: one record over a one-persona roster that lists its
primary persona again as a secondary persona. -/
theorem C5_aggregation_effects_witness :
    countAt (applyPrimary (initMatrix ["A"])
        ⟨"A", ["A"], "decision", 50, "t", "s"⟩) "A" "decision" =
      countAt (initMatrix ["A"]) "A" "decision" + 1 ∧
    itemsAt (applySecondaries (initMatrix ["A"])
        ⟨"A", ["A"], "decision", 50, "t", "s"⟩) "A" "decision" =
      itemsAt (initMatrix ["A"]) "A" "decision" := by
  have h := C5_aggregation_effects (initMatrix ["A"])
    ⟨"A", ["A"], "decision", 50, "t", "s"⟩
  exact ⟨(h.1 (by simp [initMatrix, findSC]) (by simp [funnelStages])).1,
    (h.2.1 "A" "decision").2⟩

/-- C1: corrected — `analyze_coverage` re-initializes the matrix itself at
the start of every call (line 40), so a repeated call is idempotent; only
the bare aggregation loop, run twice without the initialization step,
doubles `content_count` for every affected cell. -/
theorem C1_reinit_idempotence_and_loop_doubling :
    (∀ (a : Analyzer) (rs : List ClassificationRecord),
      analyzeCoverageS (analyzeCoverageS a rs) rs = analyzeCoverageS a rs) ∧
    (∀ (personas : List String) (rs : List ClassificationRecord)
      (q t : String),
      countAt (aggregatePass (aggregatePass (initMatrix personas) rs) rs) q t =
        2 * countAt (aggregatePass (initMatrix personas) rs) q t) := by
  constructor
  · intro a rs
    rfl
  · intro ps rs q t
    simp only [countAt_aggregatePass, countAt_initMatrix,
      findSC_isSome_aggregatePass]
    by_cases h : (findSC (initMatrix ps) q).isSome <;> simp [h] <;> ring

/-- Counterexample for C1 as stated: calling `analyze_coverage` twice with
the same single record leaves `content_count` at 1, not 2, because the
method re-initializes the matrix on every call. -/
theorem C1_counterexample_second_call_does_not_double :
    countAt (analyzeCoverageS (analyzeCoverageS
        { personas := ["CMO"], coverage_matrix := [] }
        [⟨"CMO", [], "decision", 80, "t", "s"⟩])
        [⟨"CMO", [], "decision", 80, "t", "s"⟩]).coverage_matrix
      "CMO" "decision" = 1 ∧
    countAt (analyzeCoverageS (analyzeCoverageS
        { personas := ["CMO"], coverage_matrix := [] }
        [⟨"CMO", [], "decision", 80, "t", "s"⟩])
        [⟨"CMO", [], "decision", 80, "t", "s"⟩]).coverage_matrix
      "CMO" "decision" ≠ 2 := by
  have h : countAt (analyzeCoverageS (analyzeCoverageS
      { personas := ["CMO"], coverage_matrix := [] }
      [⟨"CMO", [], "decision", 80, "t", "s"⟩])
      [⟨"CMO", [], "decision", 80, "t", "s"⟩]).coverage_matrix
      "CMO" "decision" = 1 := by
    simp [analyzeCoverageS, analyzeCoverage, aggregatePass, applyRecord,
      applyPrimary, applySecondaries, initMatrix, updateCell, setStage,
      findSC, getStage, calculateScores, scoreCell, emptyCell, funnelStages,
      countAt, round1, round_eq]
  refine ⟨h, ?_⟩
  rw [h]
  norm_num

/-- Statuses from `statusOf` are only ever the three status strings. -/
theorem statusOf_trichotomy (q : ℚ) :
    statusOf q = "gap" ∨ statusOf q = "moderate" ∨ statusOf q = "strong" := by
  rw [statusOf]
  split_ifs <;> simp

/-- Scoring rewrites each cell in place and keeps the matrix shape. -/
theorem cellTriples_calculateScores (m : CoverageMatrix) :
    cellTriples (calculateScores m) =
      (cellTriples m).map (fun tr => (tr.1, tr.2.1, scoreCell tr.2.2)) := by
  induction m with
  | nil => rfl
  | cons e rest ih => simp [cellTriples, calculateScores] at ih ⊢; exact ih

/-- A list of cells each carrying one of the three statuses is exactly
partitioned by the three status filters. -/
theorem filter_status_partition (l : List (String × String × Cell))
    (h : ∀ tr ∈ l, tr.2.2.status = "gap" ∨ tr.2.2.status = "moderate" ∨
      tr.2.2.status = "strong") :
    (l.filter (fun tr => tr.2.2.status == "gap")).length +
      (l.filter (fun tr => tr.2.2.status == "moderate")).length +
      (l.filter (fun tr => tr.2.2.status == "strong")).length = l.length := by
  induction l with
  | nil => rfl
  | cons tr l ih =>
    have htr := h tr (List.mem_cons_self tr l)
    have hrest := ih (fun x hx => h x (List.mem_cons_of_mem tr hx))
    rcases htr with hs | hs | hs <;>
      simp [List.filter_cons, hs, hrest] <;> omega

/-- The matrix always holds three cells per persona entry. -/
theorem length_cellTriples (m : CoverageMatrix) :
    (cellTriples m).length = 3 * m.length := by
  induction m with
  | nil => rfl
  | cons e rest ih => simp [cellTriples] at ih ⊢; omega

/-- Cell updates keep the persona key sequence. -/
theorem keys_updateCell (m : CoverageMatrix) (p s : String) (f : Cell → Cell) :
    (updateCell m p s f).map Prod.fst = m.map Prod.fst := by
  rw [updateCell, List.map_map]
  apply List.map_congr_left
  intro e _
  by_cases h : e.1 = p <;> simp [h]

/-- The primary step keeps the persona key sequence. -/
theorem keys_applyPrimary (m : CoverageMatrix) (r : ClassificationRecord) :
    (applyPrimary m r).map Prod.fst = m.map Prod.fst := by
  rw [applyPrimary]
  split
  · split
    · rw [keys_updateCell]
    · rfl
  · rfl

/-- The secondary loop keeps the persona key sequence. -/
theorem keys_applySecondaries (m : CoverageMatrix) (r : ClassificationRecord) :
    (applySecondaries m r).map Prod.fst = m.map Prod.fst := by
  rw [applySecondaries]
  induction r.secondary_personas generalizing m with
  | nil => rfl
  | cons sp l ih =>
    rw [List.foldl_cons, ih]
    split
    · split
      · rw [keys_updateCell]
      · rfl
    · rfl

/-- Processing one record keeps the persona key sequence. -/
theorem keys_applyRecord (m : CoverageMatrix) (r : ClassificationRecord) :
    (applyRecord m r).map Prod.fst = m.map Prod.fst := by
  rw [applyRecord, keys_applySecondaries, keys_applyPrimary]

/-- The aggregation loop keeps the persona key sequence. -/
theorem keys_aggregatePass (rs : List ClassificationRecord)
    (m : CoverageMatrix) :
    (aggregatePass m rs).map Prod.fst = m.map Prod.fst := by
  induction rs generalizing m with
  | nil => rfl
  | cons r rs ih =>
    have h0 : aggregatePass m (r :: rs) = aggregatePass (applyRecord m r) rs :=
      rfl
    rw [h0, ih, keys_applyRecord]

/-- Scoring keeps the persona key sequence. -/
theorem keys_calculateScores (m : CoverageMatrix) :
    (calculateScores m).map Prod.fst = m.map Prod.fst := by
  rw [calculateScores, List.map_map]
  rfl

/-- Initialization lists exactly the roster names. -/
theorem keys_initMatrix (personas : List String) :
    (initMatrix personas).map Prod.fst = personas := by
  rw [initMatrix, List.map_map]
  exact List.map_id personas

/-- C10: After any `analyze_coverage` run, the matrix keys are exactly the
roster, every cell's status is one of gap, moderate, strong, and the three
projection lists partition the cells, so their lengths sum to 3 times the
number of (distinct) personas. -/
theorem C10_status_partition (personas : List String)
    (rs : List ClassificationRecord) (_hnd : personas.Nodup) :
    ((analyzeCoverage personas rs).map Prod.fst = personas) ∧
    (∀ tr ∈ cellTriples (analyzeCoverage personas rs),
      tr.2.2.status = "gap" ∨ tr.2.2.status = "moderate" ∨
        tr.2.2.status = "strong") ∧
    (getGaps (analyzeCoverage personas rs)).length +
      (getModerateAreas (analyzeCoverage personas rs)).length +
      (getStrengths (analyzeCoverage personas rs)).length =
      3 * personas.length := by
  have hkeys : (analyzeCoverage personas rs).map Prod.fst = personas := by
    rw [analyzeCoverage, keys_calculateScores, keys_aggregatePass,
      keys_initMatrix]
  have hstat : ∀ tr ∈ cellTriples (analyzeCoverage personas rs),
      tr.2.2.status = "gap" ∨ tr.2.2.status = "moderate" ∨
        tr.2.2.status = "strong" := by
    intro tr htr
    rw [analyzeCoverage, cellTriples_calculateScores] at htr
    obtain ⟨tr0, -, rfl⟩ := List.mem_map.mp htr
    exact statusOf_trichotomy _
  refine ⟨hkeys, hstat, ?_⟩
  have hlen : (analyzeCoverage personas rs).length = personas.length := by
    have := congrArg List.length hkeys
    simpa using this
  rw [getGaps, List.length_insertionSort, gapList, getModerateAreas,
    getStrengths, List.length_map, List.length_map, List.length_map]
  rw [filter_status_partition _ hstat, length_cellTriples, hlen]

/-- Witness for C10: a two-persona roster with no records — six gap cells,
nothing moderate or strong. -/
theorem C10_status_partition_witness :
    (getGaps (analyzeCoverage ["A", "B"] [])).length +
      (getModerateAreas (analyzeCoverage ["A", "B"] [])).length +
      (getStrengths (analyzeCoverage ["A", "B"] [])).length = 6 := by
  have h := (C10_status_partition ["A", "B"] [] (by simp)).2.2
  simpa using h

/-- Every gap built by `get_gaps` carries the priority
`min(100, (100 - coverage_score) + stage_bonus)`. -/
theorem gapList_priority {m : CoverageMatrix} {g : Gap} (hg : g ∈ gapList m) :
    g.priority = min 100 ((100 - g.coverage_score) +
      (if g.stage = "decision" then (20:ℚ)
       else if g.stage = "consideration" then 10 else 0)) := by
  rw [gapList] at hg
  obtain ⟨tr, -, rfl⟩ := List.mem_map.mp hg
  rw [mkGap, calculatePriority]
  by_cases h1 : tr.2.1 = "decision"
  · simp [h1]
  · by_cases h2 : tr.2.1 = "consideration" <;> simp [h1, h2]

/-- The list returned by `get_gaps` is sorted descending by priority. -/
theorem getGaps_sorted (m : CoverageMatrix) :
    List.Sorted gapGE (getGaps m) := by
  rw [getGaps]
  exact List.sorted_insertionSort gapGE (gapList m)

/-- Elements of the sorted gap list come from the unsorted gap list. -/
theorem mem_gapList_of_mem_getGaps {m : CoverageMatrix} {g : Gap}
    (hg : g ∈ getGaps m) : g ∈ gapList m := by
  rw [getGaps] at hg
  exact (List.mem_insertionSort gapGE).mp hg

/-- C2: corrected — for gaps with equal coverage_score of at least 20 (so
that the `min(100, ...)` cap leaves the stage bonuses effective and the
priorities distinct), the sorted gap list places decision before
consideration before awareness; when the cap equalizes the priorities
(coverage_score below 20) the stable sort keeps matrix iteration order
instead. -/
theorem C2_stage_ordering_uncapped (m : CoverageMatrix) (i j : ℕ)
    (hi : i < (getGaps m).length) (hj : j < (getGaps m).length)
    (heq : ((getGaps m).get ⟨i, hi⟩).coverage_score =
      ((getGaps m).get ⟨j, hj⟩).coverage_score)
    (hs20 : 20 ≤ ((getGaps m).get ⟨i, hi⟩).coverage_score)
    (hstage :
      (((getGaps m).get ⟨i, hi⟩).stage = "decision" ∧
        ((getGaps m).get ⟨j, hj⟩).stage = "consideration") ∨
      (((getGaps m).get ⟨i, hi⟩).stage = "consideration" ∧
        ((getGaps m).get ⟨j, hj⟩).stage = "awareness") ∨
      (((getGaps m).get ⟨i, hi⟩).stage = "decision" ∧
        ((getGaps m).get ⟨j, hj⟩).stage = "awareness")) :
    i < j := by
  set gi := (getGaps m).get ⟨i, hi⟩ with hgi
  set gj := (getGaps m).get ⟨j, hj⟩ with hgj
  have hpi := gapList_priority
    (mem_gapList_of_mem_getGaps (List.get_mem (getGaps m) i hi))
  have hpj := gapList_priority
    (mem_gapList_of_mem_getGaps (List.get_mem (getGaps m) j hj))
  rw [← hgi] at hpi
  rw [← hgj] at hpj
  rw [heq] at hs20
  have hlt : gj.priority < gi.priority := by
    rcases hstage with ⟨hdi, hdj⟩ | ⟨hdi, hdj⟩ | ⟨hdi, hdj⟩ <;>
      rw [hdi] at hpi <;> rw [hdj] at hpj <;>
      rw [heq] at hpi <;> simp at hpi hpj <;>
      rw [hpi, hpj, min_eq_right (by linarith), min_eq_right (by linarith)] <;>
      linarith
  rcases Nat.lt_trichotomy i j with h | h | h
  · exact h
  · exfalso
    have hgg : gi = gj := by
      rw [hgi, hgj]
      congr 1
      exact Fin.ext h
    rw [hgg] at hlt
    exact lt_irrefl _ hlt
  · exfalso
    have hrel := (getGaps_sorted m).rel_get_of_lt
      (show (⟨j, hj⟩ : Fin (getGaps m).length) < ⟨i, hi⟩ from h)
    rw [gapGE] at hrel
    rw [← hgi, ← hgj] at hrel
    exact absurd hrel (not_le.mpr hlt)

/-- Witness for C2 (amended): one persona whose three cells all score 24 —
the sorted gap list is decision, consideration, awareness. -/
theorem C2_stage_ordering_uncapped_witness :
    (getGaps [("A", ⟨⟨2, [], 0, 24, "gap"⟩, ⟨2, [], 0, 24, "gap"⟩,
        ⟨2, [], 0, 24, "gap"⟩⟩)]).map Gap.stage =
      ["decision", "consideration", "awareness"] ∧
    (getGaps [("A", ⟨⟨2, [], 0, 24, "gap"⟩, ⟨2, [], 0, 24, "gap"⟩,
        ⟨2, [], 0, 24, "gap"⟩⟩)]).map Gap.coverage_score = [24, 24, 24] ∧
    (0 : ℕ) < 1 := by
  have hG : getGaps [("A", ⟨⟨2, [], 0, 24, "gap"⟩, ⟨2, [], 0, 24, "gap"⟩,
      ⟨2, [], 0, 24, "gap"⟩⟩)] =
      [⟨"A", "decision", "Decision", 24, 2, 96⟩,
       ⟨"A", "consideration", "Consideration", 24, 2, 86⟩,
       ⟨"A", "awareness", "Awareness", 24, 2, 76⟩] := by
    simp [getGaps, gapList, cellTriples, mkGap, stageName,
      calculatePriority, List.insertionSort, List.orderedInsert, gapGE,
      funnelStages, min_def]
    norm_num [gapGE]
  refine ⟨by rw [hG]; rfl, by rw [hG]; rfl, ?_⟩
  exact C2_stage_ordering_uncapped _ 0 1
    (by rw [hG]; norm_num) (by rw [hG]; norm_num)
    (by simp [hG]) (by simp [hG]; norm_num)
    (by left; constructor <;> simp [hG])

/-- Counterexample for C2 as stated: a persona with no content has three
gaps with equal coverage_score 0; their priorities are all capped at 100,
so the stable sort keeps matrix order and the decision gap comes last, not
first. -/
theorem C2_counterexample_capped_ties :
    (getGaps [("Z", ⟨⟨0, [], 0, 0, "gap"⟩, ⟨0, [], 0, 0, "gap"⟩,
        ⟨0, [], 0, 0, "gap"⟩⟩)]).map Gap.stage =
      ["awareness", "consideration", "decision"] ∧
    (getGaps [("Z", ⟨⟨0, [], 0, 0, "gap"⟩, ⟨0, [], 0, 0, "gap"⟩,
        ⟨0, [], 0, 0, "gap"⟩⟩)]).map Gap.coverage_score = [0, 0, 0] ∧
    ¬ (((getGaps [("Z", ⟨⟨0, [], 0, 0, "gap"⟩, ⟨0, [], 0, 0, "gap"⟩,
        ⟨0, [], 0, 0, "gap"⟩⟩)]).map Gap.stage).indexOf "decision" <
      ((getGaps [("Z", ⟨⟨0, [], 0, 0, "gap"⟩, ⟨0, [], 0, 0, "gap"⟩,
        ⟨0, [], 0, 0, "gap"⟩⟩)]).map Gap.stage).indexOf "consideration") := by
  have hG : getGaps [("Z", ⟨⟨0, [], 0, 0, "gap"⟩, ⟨0, [], 0, 0, "gap"⟩,
      ⟨0, [], 0, 0, "gap"⟩⟩)] =
      [⟨"Z", "awareness", "Awareness", 0, 0, 100⟩,
       ⟨"Z", "consideration", "Consideration", 0, 0, 100⟩,
       ⟨"Z", "decision", "Decision", 0, 0, 100⟩] := by
    simp [getGaps, gapList, cellTriples, mkGap, stageName,
      calculatePriority, List.insertionSort, List.orderedInsert, gapGE,
      funnelStages, min_def]
  refine ⟨by rw [hG]; rfl, by rw [hG]; rfl, ?_⟩
  rw [hG]
  simp [List.indexOf, List.findIdx, List.findIdx.go]
